import Mathlib

/-
Verification of the scoring and analysis engine of the SEO page analyzer
(`src/app.py`).  The engine's pure logic is embedded shallowly: every
function below mirrors the corresponding Python code.  The markup parser
(BeautifulSoup), URL resolution (`urljoin` / `urlparse`), the readability
library (`textstat`) and the network layer (`requests`) are external
collaborators; their outputs appear here as fields of the input
structures or as oracle functions, exactly at the boundary where the
Python code consumes them.  Python floats are modelled by `ℚ` (all the
quantities involved are small exact ratios), Python ints by `ℤ`/`ℕ`.
-/

namespace Seo

/-! ### Generic text helpers (models of the Python string methods used by
`app.py`, written as structural recursions over the character list) -/

/-- Auxiliary for Python `str.split()`: accumulate the current word
(reversed) and split on whitespace runs, dropping empty pieces. -/
def wordsAux (cur : List Char) : List Char → List (List Char)
  | [] => if cur = [] then [] else [cur.reverse]
  | c :: cs =>
    if c.isWhitespace then
      if cur = [] then wordsAux [] cs else cur.reverse :: wordsAux [] cs
    else wordsAux (c :: cur) cs

/-- Python `str.split()` with no argument: split on runs of whitespace,
dropping empty pieces. -/
def pySplit (s : String) : List String :=
  (wordsAux [] s.toList).map String.mk

/-- Auxiliary for Python `str.split(sep)` with a one-character separator:
split at every occurrence, keeping empty pieces. -/
def splitCharAux (sep : Char) (cur : List Char) : List Char → List (List Char)
  | [] => [cur.reverse]
  | c :: cs =>
    if c = sep then cur.reverse :: splitCharAux sep [] cs
    else splitCharAux sep (c :: cur) cs

/-- Python `str.split(sep)` for a one-character separator (also models
`str.splitlines()` for bodies using plain newlines). -/
def splitChar (sep : Char) (s : String) : List String :=
  (splitCharAux sep [] s.toList).map String.mk

/-- Join a list of strings with a separator (Python `sep.join`). -/
def joinWith (sep : String) : List String → String
  | [] => ""
  | [x] => x
  | x :: xs => x ++ sep ++ joinWith sep xs

/-- Python `str.strip()`: remove leading and trailing whitespace. -/
def pyStrip (s : String) : String :=
  String.mk
    (((s.toList.dropWhile Char.isWhitespace).reverse.dropWhile
        Char.isWhitespace).reverse)

/-- Python `str.lower()` (ASCII model). -/
def pyLower (s : String) : String := String.mk (s.toList.map Char.toLower)

/-- Does the character list `p` occur at the start of `l`? -/
def listStartsWith (l p : List Char) : Bool := decide (l.take p.length = p)

/-- Does `p` occur as a contiguous segment of `l`? -/
def containsSeg : List Char → List Char → Bool
  | [], p => decide (p = [])
  | l@(_ :: t), p => listStartsWith l p || containsSeg t p

/-- Python `pat in s` substring test (used for viewport / charset checks). -/
def strContains (s pat : String) : Bool := containsSeg s.toList pat.toList

/-- Python `s.startswith(pat)`. -/
def strStarts (s pat : String) : Bool := listStartsWith s.toList pat.toList

/-- Python truthiness of an optional string: present and non-empty. -/
def truthy : Option String → Bool
  | none => false
  | some s => s ≠ ""

/-- Index of the first occurrence of `t` in `l` (Python `list.index`);
`l.length` when absent.  Used to express first-occurrence order. -/
def firstIdx : List String → String → Nat
  | [], _ => 0
  | x :: xs, t => if x = t then 0 else firstIdx xs t + 1

/-- First-occurrence deduplication relative to the already-seen keys. -/
def dedupFirstAux (seen : List String) : List String → List String
  | [] => []
  | t :: ts =>
    if t ∈ seen then dedupFirstAux seen ts
    else t :: dedupFirstAux (t :: seen) ts

/-- First-occurrence deduplication: the keys of a `collections.Counter`
built from the list, in insertion order. -/
def dedupFirst (l : List String) : List String := dedupFirstAux [] l

/-- Model of `collections.Counter(tokens)` as an association list:
keys in first-occurrence (= insertion) order, values the multiplicities. -/
def counterOf (tokens : List String) : List (String × Nat) :=
  (dedupFirst tokens).map (fun t => (t, tokens.count t))

/-- Insert into a list sorted by the boolean relation `le`. -/
def insertSorted {α : Type} (le : α → α → Bool) (x : α) : List α → List α
  | [] => [x]
  | y :: ys => if le x y then x :: y :: ys else y :: insertSorted le x ys

/-- Insertion sort by the boolean relation `le`. -/
def sortBy {α : Type} (le : α → α → Bool) : List α → List α
  | [] => []
  | x :: xs => insertSorted le x (sortBy le xs)

/-- Comparison key of `Counter.most_common` on `(index, term, count)`
triples, where `index` is the insertion (first-occurrence) rank: count
descending, ties broken by insertion order.  `most_common` is a stable
descending sort by count, which on an insertion-ordered list is exactly a
sort by this total lexicographic key. -/
def mcKey (a b : Nat × String × Nat) : Bool :=
  decide (b.2.2 < a.2.2) || (decide (a.2.2 = b.2.2) && decide (a.1 ≤ b.1))

/-- Model of `Counter(tokens).most_common(k)`. -/
def most_common (tokens : List String) (k : Nat) : List (String × Nat) :=
  ((sortBy mcKey (counterOf tokens).enum).map Prod.snd).take k

/-! ### Configuration constants of `app.py` -/

def MIN_CONTENT_LENGTH_WORDS : Nat := 300
def GOOD_LOAD_TIME_THRESHOLD : ℚ := 2
def OK_LOAD_TIME_THRESHOLD : ℚ := 4
def GOOD_READABILITY_THRESHOLD : ℚ := 60
def MAX_KEYWORDS_TO_SHOW : Nat := 10

/-- `clean_text` of `app.py`: lowercase, drop every character that is not
a word character, whitespace or hyphen, collapse whitespace runs to a
single space and trim (word characters modelled as ASCII alphanumerics
plus underscore). -/
def keepChar (c : Char) : Bool :=
  c.isAlphanum || c = '_' || c = '-' || c.isWhitespace

def clean_text (s : String) : String :=
  joinWith " " (pySplit (String.mk ((pyLower s).toList.filter keepChar)))

/-- The fixed stop-word list of `analyze_on_page_content`. -/
def stop_words : List String :=
  ["a", "an", "the", "and", "or", "but", "is", "in", "it", "of", "to", "on",
   "for", "with", "as", "by", "at", "this", "that", "i", "you", "he", "she",
   "we", "they", "be", "are", "was", "were", "has", "have", "had", "do",
   "does", "did", "will", "shall", "should", "can", "could", "may", "might",
   "must", "not", "no", "so", "if", "me", "my", "your", "our", "its", "-", ""]

/-- The stop-word / short-word filter applied to the tokenized cleaned
body text. -/
def meaningful_words (text : String) : List String :=
  (pySplit (clean_text text)).filter
    (fun w => !(stop_words.contains w) && decide (w.length > 2))

/-- The `(word, count, density)` triples of the keyword analysis:
`most_common(MAX_KEYWORDS_TO_SHOW)` with
`density = (count / total_meaningful_words) * 100` (guarded by
`total_meaningful_words > 0` as in the source). -/
def top_keywords_of (tokens : List String) : List (String × Nat × ℚ) :=
  (most_common tokens MAX_KEYWORDS_TO_SHOW).map
    (fun p => (p.1, p.2,
      if tokens.length > 0 then ((p.2 : ℚ) / (tokens.length : ℚ)) * 100 else 0))

/-- Category percentage: `(points / max_points) * 100 if max_points > 0
else 0`, shared shape of all four analyzers. -/
def pctOf (points maxPoints : ℤ) : ℚ :=
  if maxPoints > 0 then ((points : ℚ) / (maxPoints : ℚ)) * 100 else 0

/-! ### MetaAnalyzer (`analyze_meta_tags`)

The input structure holds, for each metadata signal, the value the Python
code stores into `meta_data` after querying the soup: a field is `some v`
exactly when the source's presence-and-truthiness guard for that signal
held (so the point was reached where the value is stored), with `v` the
stored, already-stripped value.  Point conditions follow the source:
the title/description/robots/canonical/author/charset/language points
test the guard itself (`isSome`), while the Open Graph, Twitter, favicon
and viewport checks test the stored values.  `faviconHref` is the
resolved `urljoin` of the `href` selected by the source's preference
cascade (`rel=icon`, then `rel="shortcut icon"`, then the first
`rel~icon` element); resolving a truthy href against a non-empty base
gives a truthy URL. -/

structure MetaInput where
  title : Option String
  description : Option String
  keywords : Option String
  robots : Option String
  canonical : Option String
  ogTitle : Option String
  ogDescription : Option String
  ogImage : Option String
  twitterCard : Option String
  twitterTitle : Option String
  twitterDescription : Option String
  viewport : Option String
  author : Option String
  charsetAttr : Option String
  httpEquiv : Option String
  lang : Option String
  faviconHref : Option String
  alternates : List (String × String)

def titlePoints (i : MetaInput) : ℤ := if i.title.isSome then 5 else 0

def descriptionPoints (i : MetaInput) : ℤ := if i.description.isSome then 4 else 0

def robotsMetaPoints (i : MetaInput) : ℤ := if i.robots.isSome then 1 else 0

def canonicalPoints (i : MetaInput) : ℤ := if i.canonical.isSome then 3 else 0

def ogPoints (i : MetaInput) : ℤ :=
  if truthy i.ogTitle && truthy i.ogDescription && truthy i.ogImage then 3 else 0

def twitterPoints (i : MetaInput) : ℤ :=
  if truthy i.twitterCard && truthy i.twitterTitle && truthy i.twitterDescription
  then 2 else 0

def viewportPointsMeta (i : MetaInput) : ℤ :=
  match i.viewport with
  | some v =>
    if strContains v "width=device-width" && strContains v "initial-scale=1" then 3
    else if strContains v "width=device-width" then 1 else 0
  | none => 0

def authorPoints (i : MetaInput) : ℤ := if i.author.isSome then 1 else 0

def charsetPoints (i : MetaInput) : ℤ :=
  if i.charsetAttr.isSome then 1
  else
    match i.httpEquiv with
    | some c => if strContains c "charset=" then 1 else 0
    | none => 0

def langPoints (i : MetaInput) : ℤ := if i.lang.isSome then 1 else 0

def faviconPoints (i : MetaInput) : ℤ := if truthy i.faviconHref then 1 else 0

def alternatesPoints (i : MetaInput) : ℤ := if i.alternates ≠ [] then 3 else 0

def metaPoints (i : MetaInput) : ℤ :=
  titlePoints i + descriptionPoints i + robotsMetaPoints i + canonicalPoints i +
  ogPoints i + twitterPoints i + viewportPointsMeta i + authorPoints i +
  charsetPoints i + langPoints i + faviconPoints i + alternatesPoints i

def meta_max_points : ℤ := 28

/-- The category score returned by `analyze_meta_tags`. -/
def analyze_meta_tags (i : MetaInput) : ℚ := pctOf (metaPoints i) meta_max_points

/-! ### ContentAnalyzer (`analyze_on_page_content`) -/

/-- A heading element: its level (`int(h.name[1])`, 1–6) and its
`get_text(strip=True)` text. -/
structure Heading where
  level : Nat
  text : String

/-- Input of the content analyzer.  `bodyText` is the text extracted from
the body after the script/style/nav/footer/aside subtrees are removed
(`none` when the document has no body); `readability` is the result of
`textstat.flesch_reading_ease` on that text (`none` when the library
raises). -/
structure ContentInput where
  headings : List Heading
  bodyText : Option String
  readability : Option ℚ
  imageAlts : List String

/-- The levels of the non-empty headings, in document order (empty
headings are skipped by the loop). -/
def headingLevels (hs : List Heading) : List Nat :=
  (hs.filter (fun h => h.text ≠ "")).map (fun h => h.level)

/-- One step of the hierarchy check: state is
`(heading_hierarchy_ok, last_level)`. -/
def hierStep (st : Bool × Nat) (level : Nat) : Bool × Nat :=
  (if level > st.2 + 1 ∧ st.2 ≠ 0 then false else st.1, level)

def headingScan (levels : List Nat) : Bool × Nat :=
  levels.foldl hierStep (true, 0)

def has_h1 (levels : List Nat) : Bool := levels.contains 1

def h1Count (levels : List Nat) : Nat := levels.count 1

/-- Heading points: `+5` for an H1, `-2` and forced-invalid hierarchy for
multiple H1s, then `+3` (valid hierarchy and H1) or `+1` (H1 but invalid
hierarchy); the inner conditional is the `heading_hierarchy_ok` flag after
the multiple-H1 forcing. -/
def headingPoints (levels : List Nat) : ℤ :=
  (if has_h1 levels then (5 : ℤ) - (if h1Count levels > 1 then 2 else 0) else 0) +
  (if (if has_h1 levels && decide (h1Count levels > 1) then false
       else (headingScan levels).1) && has_h1 levels then 3
   else if has_h1 levels then 1 else 0)

def word_count (i : ContentInput) : Nat :=
  match i.bodyText with
  | some t => (pySplit t).length
  | none => 0

def lengthPoints (wc : Nat) : ℤ :=
  if wc ≥ MIN_CONTENT_LENGTH_WORDS then 5 else if wc > 0 then 2 else 0

def readabilityPoints (i : ContentInput) : ℤ :=
  if word_count i > 50 then
    match i.readability with
    | some s =>
      if s ≥ GOOD_READABILITY_THRESHOLD then 5 else if s ≥ 30 then 2 else 0
    | none => 0
  else 0

def keywordPoints (i : ContentInput) : ℤ :=
  if word_count i > 0 then
    if meaningful_words (i.bodyText.getD "") ≠ [] then
      if top_keywords_of (meaningful_words (i.bodyText.getD "")) ≠ [] then 5 else 0
    else 0
  else 0

/-- Number of images with non-empty (stripped) alt text; `alts` holds
`img.get('alt', '')` per image. -/
def with_alt (alts : List String) : Nat :=
  (alts.filter (fun a => pyStrip a ≠ "")).length

def imageAltPoints (alts : List String) : ℤ :=
  if alts.length > 0 then
    if ((with_alt alts : ℚ) / (alts.length : ℚ)) * 100 ≥ 90 then 4
    else if ((with_alt alts : ℚ) / (alts.length : ℚ)) * 100 ≥ 50 then 2
    else 0
  else 4

def contentPoints (i : ContentInput) : ℤ :=
  headingPoints (headingLevels i.headings) + lengthPoints (word_count i) +
  readabilityPoints i + keywordPoints i + imageAltPoints i.imageAlts

def content_max_points : ℤ := 30

/-- The category score returned by `analyze_on_page_content`. -/
def analyze_on_page_content (i : ContentInput) : ℚ :=
  pctOf (contentPoints i) content_max_points

/-! ### LinkAnalyzer (`analyze_links`)

Each anchor is given with its resolved absolute URL
(`urljoin(base_url, href)`) together with that URL's parsed scheme and
netloc (`urlparse` being the external URL library), plus its
`get_text(strip=True)` anchor text.  `baseDomain` is
`urlparse(base_url).netloc`. -/

structure Anchor where
  url : String
  scheme : String
  domain : String
  text : String

inductive LinkType
  | internal
  | external
  | other
deriving DecidableEq, Repr

structure LinkInfo where
  href : String
  text : String
  type : LinkType
deriving DecidableEq, Repr

structure LinkData where
  internal : List String
  external : List String
  internal_count : Nat
  external_count : Nat
  anchorKeys : List String
  links_all : List LinkInfo
deriving DecidableEq, Repr

def emptyAnchorKey : String := "[Empty Anchor]"

/-- The key under which an anchor is tallied in the anchor-text counter. -/
def anchorKey (a : Anchor) : String :=
  if a.text ≠ "" then a.text else emptyAnchorKey

/-- The classification an anchor receives in the loop of `analyze_links`. -/
def classifyLink (baseDomain : String) (a : Anchor) : LinkType :=
  if a.scheme = "" ∨ (a.scheme ≠ "http" ∧ a.scheme ≠ "https") then .other
  else if a.domain = baseDomain then .internal
  else .external

/-- The record appended to `links_all` for an anchor. -/
def mkLinkInfo (baseDomain : String) (a : Anchor) : LinkInfo :=
  ⟨a.url, a.text, classifyLink baseDomain a⟩

/-- Does the anchor's resolved scheme count as http/https? -/
def isHttpAnchor (a : Anchor) : Bool :=
  decide (a.scheme = "http" ∨ a.scheme = "https")

/-- One iteration of the link loop.  The anchor-text counter is modelled
by the stream of tallied keys (`anchorKeys`): the counter's length is the
number of distinct keys and its `[Empty Anchor]` entry is that key's
multiplicity. -/
def linkStep (baseDomain : String) (st : LinkData) (a : Anchor) : LinkData :=
  if a.scheme = "" ∨ (a.scheme ≠ "http" ∧ a.scheme ≠ "https") then
    ⟨st.internal, st.external, st.internal_count, st.external_count,
      st.anchorKeys ++ [anchorKey a],
      st.links_all ++ [⟨a.url, a.text, .other⟩]⟩
  else if a.domain = baseDomain then
    ⟨st.internal ++ [a.url], st.external, st.internal_count + 1, st.external_count,
      st.anchorKeys ++ [anchorKey a],
      st.links_all ++ [⟨a.url, a.text, .internal⟩]⟩
  else
    ⟨st.internal, st.external ++ [a.url], st.internal_count, st.external_count + 1,
      st.anchorKeys ++ [anchorKey a],
      st.links_all ++ [⟨a.url, a.text, .external⟩]⟩

def initLinkData : LinkData := ⟨[], [], 0, 0, [], []⟩

def linkFold (baseDomain : String) (anchors : List Anchor) : LinkData :=
  anchors.foldl (linkStep baseDomain) initLinkData

def total_links (d : LinkData) : Nat := d.internal_count + d.external_count

def distinctAnchorTexts (d : LinkData) : Nat := (dedupFirst d.anchorKeys).length

def emptyAnchorCount (d : LinkData) : Nat := d.anchorKeys.count emptyAnchorKey

/-- The link-category point rubric as the source computes it (all of it
inside `if total_links > 0`). -/
def linkPoints (d : LinkData) : ℤ :=
  if total_links d > 0 then
    5 +
    (if d.internal_count > 0 ∧ d.external_count > 0 ∧ total_links d > 5
     then 5 else 0) +
    (if distinctAnchorTexts d > 3 ∧
        ((emptyAnchorCount d : ℚ) < (total_links d : ℚ) * 0.5)
     then 5
     else if distinctAnchorTexts d > 1 then 2 else 0)
  else 0

def link_max_points : ℤ := 15

/-- `analyze_links`: the accumulated link data and the category score. -/
def analyze_links (baseDomain : String) (anchors : List Anchor) : LinkData × ℚ :=
  (linkFold baseDomain anchors,
   pctOf (linkPoints (linkFold baseDomain anchors)) link_max_points)

/-- The link point rubric as claim C4 words it: the three clauses awarded
independently, with no overall `total_links > 0` gate.  Stated from the
claim's words, for comparison with `linkPoints` (the source's version). -/
def linkPointsClaimed (d : LinkData) : ℤ :=
  (if total_links d > 0 then 5 else 0) +
  (if d.internal_count > 0 ∧ d.external_count > 0 ∧ total_links d > 5
   then 5 else 0) +
  (if distinctAnchorTexts d > 3 ∧
      ((emptyAnchorCount d : ℚ) < (total_links d : ℚ) * 0.5)
   then 5
   else if distinctAnchorTexts d > 1 then 2 else 0)

/-! ### TechnicalAnalyzer (`analyze_technical_seo`)

The two secondary probes are oracles: `robots` is the outcome of
`requests.get` on `/robots.txt` (`Except.error` = a raised
`RequestException`, otherwise status code and body text), and
`head` / `get` give the outcome of `requests.head` / `requests.get` on a
candidate sitemap URL. -/

inductive HttpOut
  | status (code : Nat)
  | exn (msg : String)
deriving DecidableEq, Repr

structure TechNet where
  robots : Except String (Nat × String)
  head : String → HttpOut
  get : String → HttpOut

def natStatusStr (s : Nat) : String := "Error (Status: " ++ toString s ++ ")"

/-- A robots.txt line declares a sitemap when, stripped and lowercased, it
starts with `sitemap:`. -/
def isSitemapLine (line : String) : Bool :=
  strStarts (pyLower (pyStrip line)) "sitemap:"

/-- `line.strip().split(':', 1)[1].strip()`: everything after the first
colon of the stripped line, stripped. -/
def sitemapUrlOf (line : String) : String :=
  pyStrip (joinWith ":" ((splitChar ':' (pyStrip line)).drop 1))

/-- First `sitemap:` directive of a robots.txt body (first matching line
wins; the loop breaks). -/
def sitemapDirective (body : String) : Option String :=
  (splitChar '\n' body).findSome?
    (fun line => if isSitemapLine line then some (sitemapUrlOf line) else none)

structure RobotsOut where
  pointsR : ℤ
  statusR : String
  contentR : Option String
  directive : Option String
deriving DecidableEq, Repr

def robotsCheck (res : Except String (Nat × String)) : RobotsOut :=
  match res with
  | .ok (code, body) =>
    if code = 200 then ⟨4, "Found", some body, sitemapDirective body⟩
    else if code = 404 then ⟨0, "Not Found", none, none⟩
    else ⟨0, natStatusStr code, none, none⟩
  | .error e => ⟨0, "Error fetching: " ++ e, none, none⟩

/-- Probe one sitemap candidate: HEAD; on a status that is neither 200 nor
404, fall back to GET; a raised exception (from either request) yields
`Error Fetching`.  Returns (success, status string). -/
def probeOne (net : TechNet) (u : String) : Bool × String :=
  match net.head u with
  | .status s =>
    if s = 200 then (true, "Found")
    else if s = 404 then (false, "Not Found")
    else
      match net.get u with
      | .status s2 =>
        if s2 = 200 then (true, "Found")
        else if s2 = 404 then (false, "Not Found")
        else (false, natStatusStr s2)
      | .exn _ => (false, "Error Fetching")
  | .exn _ => (false, "Error Fetching")

def probeSucceeds (net : TechNet) (u : String) : Bool := (probeOne net u).1

/-- Index of the first succeeding candidate, if any. -/
def firstHit (net : TechNet) : List String → Option Nat
  | [] => none
  | c :: cs =>
    if probeSucceeds net c then some 0 else (firstHit net cs).map (· + 1)

structure SitemapOut where
  pointsS : ℤ
  statusS : String
  urlS : Option String
  found_in_robots : Bool
  probed : List String
deriving DecidableEq, Repr

/-- The candidate loop of the sitemap check; carries the status string,
the last URL written into `tech_data`, and (as a model-level trace) the
list of candidates actually probed, so that early exit on success is
observable. -/
def sitemapLoop (net : TechNet) :
    List String → String → Option String → List String →
    Bool × String × Option String × List String
  | [], st, u, pr => (false, st, u, pr)
  | c :: cs, _, _, pr =>
    let r := probeOne net c
    if r.1 then (true, r.2, some c, pr ++ [c])
    else sitemapLoop net cs r.2 (some c) (pr ++ [c])

/-- Sitemap candidates: the robots-declared sitemap alone when a
directive was found, else the two common locations relative to
`scheme://netloc`. -/
def sitemapCandidates (base : String) (directive : Option String) : List String :=
  match directive with
  | some u => [u]
  | none => [base ++ "/sitemap.xml", base ++ "/sitemap_index.xml"]

def sitemapCheck (net : TechNet) (base : String) (directive : Option String) :
    SitemapOut :=
  let r := sitemapLoop net (sitemapCandidates base directive)
             "Not Checked" directive []
  if r.1 then ⟨5, r.2.1, r.2.2.1, directive.isSome, r.2.2.2⟩
  else ⟨0, "Not Found (Common Locations)", r.2.2.1, directive.isSome, r.2.2.2⟩

def loadTimePoints (lt : Option ℚ) : ℤ :=
  match lt with
  | some t =>
    if t ≤ GOOD_LOAD_TIME_THRESHOLD then 7
    else if t ≤ OK_LOAD_TIME_THRESHOLD then 3
    else 0
  | none => 0

def mobilePoints (viewport : Option String) : ℤ :=
  match viewport with
  | some v =>
    if strContains v "width=device-width" && strContains v "initial-scale=1" then 5
    else if strContains v "width=device-width" then 2 else 0
  | none => 0

def httpsPoints (scheme : String) : ℤ := if scheme = "https" then 3 else 0

/-- `+3` as soon as any `application/ld+json` script element exists: every
loop iteration (parse success or failure) marks the markup present. -/
def schemaPoints (schemaScriptCount : Nat) : ℤ :=
  if schemaScriptCount > 0 then 3 else 0

/-- Non-network inputs of the technical analyzer: the final URL's scheme,
its `scheme://netloc` base, the measured load time (if any), the viewport
string from `MetaData`, and the number of ld+json script elements. -/
structure TechInput where
  scheme : String
  base : String
  load_time : Option ℚ
  viewport : Option String
  schemaScriptCount : Nat

structure TechOut where
  httpsP : ℤ
  robotsOut : RobotsOut
  sitemapOut : SitemapOut
  loadP : ℤ
  mobileP : ℤ
  schemaP : ℤ
  pointsT : ℤ
  scoreT : ℚ

def tech_max_points : ℤ := 27

def analyze_technical_seo (i : TechInput) (net : TechNet) : TechOut :=
  let h := httpsPoints i.scheme
  let rb := robotsCheck net.robots
  let sm := sitemapCheck net i.base rb.directive
  let lp := loadTimePoints i.load_time
  let mp := mobilePoints i.viewport
  let sp := schemaPoints i.schemaScriptCount
  ⟨h, rb, sm, lp, mp, sp, h + rb.pointsR + sm.pointsS + lp + mp + sp,
   pctOf (h + rb.pointsR + sm.pointsS + lp + mp + sp) tech_max_points⟩

/-- Test fixture: a network where every probe fails (robots.txt fetch
raises, sitemap HEAD/GET raise). -/
def failNet : TechNet :=
  ⟨.error "connection refused", fun _ => .exn "timeout", fun _ => .exn "timeout"⟩

/-- Test fixture: robots.txt declares a sitemap; HEAD answers 405 so the
probe must fall back to GET, which answers 200. -/
def probeNet : TechNet :=
  ⟨.ok (200, "Sitemap: https://a.com/sm.xml"),
   fun _ => .status 405, fun _ => .status 200⟩

/-- Test fixture: technical inputs independent of the network. -/
def techIn0 : TechInput := ⟨"https", "https://a.com", some 1, none, 0⟩

/-! ### ScoreAggregator -/

/-- The overall weighted score (`weights = {'meta': 0.20, 'content': 0.35,
'links': 0.15, 'tech': 0.30}`). -/
def aggregate (meta content links tech : ℚ) : ℚ :=
  meta * 0.20 + content * 0.35 + links * 0.15 + tech * 0.30

/-! ### Basic score lemmas -/

lemma pctOf_eq {p m : ℤ} (hm : 0 < m) : pctOf p m = 100 * (p : ℚ) / m := by
  unfold pctOf
  rw [if_pos hm]
  ring

lemma pctOf_zero (p : ℤ) : pctOf p 0 = 0 := by simp [pctOf]

lemma pctOf_bounds {p m : ℤ} (hm : 0 < m) (h0 : 0 ≤ p) (h1 : p ≤ m) :
    0 ≤ pctOf p m ∧ pctOf p m ≤ 100 := by
  have hp : (0 : ℚ) ≤ (p : ℤ) := by exact_mod_cast h0
  have hmq : (0 : ℚ) < (m : ℤ) := by exact_mod_cast hm
  have h1q : ((p : ℤ) : ℚ) ≤ ((m : ℤ) : ℚ) := by exact_mod_cast h1
  unfold pctOf
  rw [if_pos hm]
  constructor
  · positivity
  · rw [div_mul_eq_mul_div, div_le_iff hmq]
    nlinarith

/-! ### Point bounds per component -/

lemma titlePoints_bound (i : MetaInput) : 0 ≤ titlePoints i ∧ titlePoints i ≤ 5 := by
  unfold titlePoints; split <;> omega

lemma descriptionPoints_bound (i : MetaInput) :
    0 ≤ descriptionPoints i ∧ descriptionPoints i ≤ 4 := by
  unfold descriptionPoints; split <;> omega

lemma robotsMetaPoints_bound (i : MetaInput) :
    0 ≤ robotsMetaPoints i ∧ robotsMetaPoints i ≤ 1 := by
  unfold robotsMetaPoints; split <;> omega

lemma canonicalPoints_bound (i : MetaInput) :
    0 ≤ canonicalPoints i ∧ canonicalPoints i ≤ 3 := by
  unfold canonicalPoints; split <;> omega

lemma ogPoints_bound (i : MetaInput) : 0 ≤ ogPoints i ∧ ogPoints i ≤ 3 := by
  unfold ogPoints; split <;> omega

lemma twitterPoints_bound (i : MetaInput) :
    0 ≤ twitterPoints i ∧ twitterPoints i ≤ 2 := by
  unfold twitterPoints; split <;> omega

lemma viewportPointsMeta_bound (i : MetaInput) :
    0 ≤ viewportPointsMeta i ∧ viewportPointsMeta i ≤ 3 := by
  unfold viewportPointsMeta
  repeat' split
  all_goals omega

lemma authorPoints_bound (i : MetaInput) : 0 ≤ authorPoints i ∧ authorPoints i ≤ 1 := by
  unfold authorPoints; split <;> omega

lemma charsetPoints_bound (i : MetaInput) :
    0 ≤ charsetPoints i ∧ charsetPoints i ≤ 1 := by
  unfold charsetPoints
  repeat' split
  all_goals omega

lemma langPoints_bound (i : MetaInput) : 0 ≤ langPoints i ∧ langPoints i ≤ 1 := by
  unfold langPoints; split <;> omega

lemma faviconPoints_bound (i : MetaInput) :
    0 ≤ faviconPoints i ∧ faviconPoints i ≤ 1 := by
  unfold faviconPoints; split <;> omega

lemma alternatesPoints_bound (i : MetaInput) :
    0 ≤ alternatesPoints i ∧ alternatesPoints i ≤ 3 := by
  unfold alternatesPoints; split <;> omega

lemma metaPoints_bound (i : MetaInput) : 0 ≤ metaPoints i ∧ metaPoints i ≤ 28 := by
  obtain ⟨a1, b1⟩ := titlePoints_bound i
  obtain ⟨a2, b2⟩ := descriptionPoints_bound i
  obtain ⟨a3, b3⟩ := robotsMetaPoints_bound i
  obtain ⟨a4, b4⟩ := canonicalPoints_bound i
  obtain ⟨a5, b5⟩ := ogPoints_bound i
  obtain ⟨a6, b6⟩ := twitterPoints_bound i
  obtain ⟨a7, b7⟩ := viewportPointsMeta_bound i
  obtain ⟨a8, b8⟩ := authorPoints_bound i
  obtain ⟨a9, b9⟩ := charsetPoints_bound i
  obtain ⟨a10, b10⟩ := langPoints_bound i
  obtain ⟨a11, b11⟩ := faviconPoints_bound i
  obtain ⟨a12, b12⟩ := alternatesPoints_bound i
  unfold metaPoints
  constructor <;> linarith

lemma headingPoints_bound (ls : List Nat) :
    0 ≤ headingPoints ls ∧ headingPoints ls ≤ 8 := by
  unfold headingPoints
  split <;> split <;> split <;> omega

lemma lengthPoints_bound (wc : Nat) : 0 ≤ lengthPoints wc ∧ lengthPoints wc ≤ 5 := by
  unfold lengthPoints; split <;> [omega; (split <;> omega)]

lemma readabilityPoints_bound (i : ContentInput) :
    0 ≤ readabilityPoints i ∧ readabilityPoints i ≤ 5 := by
  unfold readabilityPoints
  repeat' split
  all_goals omega

lemma keywordPoints_bound (i : ContentInput) :
    0 ≤ keywordPoints i ∧ keywordPoints i ≤ 5 := by
  unfold keywordPoints
  split <;> [(split <;> [(split <;> omega); omega]); omega]

lemma imageAltPoints_bound (alts : List String) :
    0 ≤ imageAltPoints alts ∧ imageAltPoints alts ≤ 4 := by
  unfold imageAltPoints
  split <;> [(split <;> [omega; (split <;> omega)]); omega]

lemma contentPoints_bound (i : ContentInput) :
    0 ≤ contentPoints i ∧ contentPoints i ≤ 27 := by
  obtain ⟨a1, b1⟩ := headingPoints_bound (headingLevels i.headings)
  obtain ⟨a2, b2⟩ := lengthPoints_bound (word_count i)
  obtain ⟨a3, b3⟩ := readabilityPoints_bound i
  obtain ⟨a4, b4⟩ := keywordPoints_bound i
  obtain ⟨a5, b5⟩ := imageAltPoints_bound i.imageAlts
  unfold contentPoints
  constructor <;> linarith

lemma linkPoints_bound (d : LinkData) : 0 ≤ linkPoints d ∧ linkPoints d ≤ 15 := by
  unfold linkPoints
  split <;> [(split <;> (split <;> [omega; (split <;> omega)])); omega]

lemma robotsCheck_pointsR_bound (r : Except String (Nat × String)) :
    0 ≤ (robotsCheck r).pointsR ∧ (robotsCheck r).pointsR ≤ 4 := by
  unfold robotsCheck
  repeat' split
  all_goals ((try dsimp only); omega)

lemma sitemapCheck_pointsS_bound (net : TechNet) (base : String)
    (d : Option String) :
    0 ≤ (sitemapCheck net base d).pointsS ∧ (sitemapCheck net base d).pointsS ≤ 5 := by
  simp only [sitemapCheck]
  repeat' split
  all_goals ((try dsimp only); omega)

lemma loadTimePoints_bound (lt : Option ℚ) :
    0 ≤ loadTimePoints lt ∧ loadTimePoints lt ≤ 7 := by
  unfold loadTimePoints
  repeat' split
  all_goals omega

lemma mobilePoints_bound (v : Option String) :
    0 ≤ mobilePoints v ∧ mobilePoints v ≤ 5 := by
  unfold mobilePoints
  repeat' split
  all_goals omega

lemma httpsPoints_bound (s : String) : 0 ≤ httpsPoints s ∧ httpsPoints s ≤ 3 := by
  unfold httpsPoints; split <;> omega

lemma schemaPoints_bound (n : Nat) : 0 ≤ schemaPoints n ∧ schemaPoints n ≤ 3 := by
  unfold schemaPoints; split <;> omega

lemma techPoints_bound (i : TechInput) (net : TechNet) :
    0 ≤ (analyze_technical_seo i net).pointsT ∧
      (analyze_technical_seo i net).pointsT ≤ 27 := by
  obtain ⟨a1, b1⟩ := httpsPoints_bound i.scheme
  obtain ⟨a2, b2⟩ := robotsCheck_pointsR_bound net.robots
  obtain ⟨a3, b3⟩ := sitemapCheck_pointsS_bound net i.base (robotsCheck net.robots).directive
  obtain ⟨a4, b4⟩ := loadTimePoints_bound i.load_time
  obtain ⟨a5, b5⟩ := mobilePoints_bound i.viewport
  obtain ⟨a6, b6⟩ := schemaPoints_bound i.schemaScriptCount
  unfold analyze_technical_seo
  dsimp only
  constructor <;> linarith

/-! ### Claim theorems: C1, C2, C7, C10 -/

/-- Claim C1: each of the four category scores lies between 0 and 100 and
equals `100 * points / maxPoints` (with the score defined as 0 when
`maxPoints` is 0, which never happens for the four fixed maxima). -/
theorem claim_C1 : ∀ (mi : MetaInput) (ci : ContentInput) (bD : String)
    (anchors : List Anchor) (ti : TechInput) (net : TechNet),
    (0 ≤ analyze_meta_tags mi ∧ analyze_meta_tags mi ≤ 100 ∧
      analyze_meta_tags mi = 100 * (metaPoints mi : ℚ) / 28) ∧
    (0 ≤ analyze_on_page_content ci ∧ analyze_on_page_content ci ≤ 100 ∧
      analyze_on_page_content ci = 100 * (contentPoints ci : ℚ) / 30) ∧
    (0 ≤ (analyze_links bD anchors).2 ∧ (analyze_links bD anchors).2 ≤ 100 ∧
      (analyze_links bD anchors).2 = 100 * (linkPoints (linkFold bD anchors) : ℚ) / 15) ∧
    (0 ≤ (analyze_technical_seo ti net).scoreT ∧
      (analyze_technical_seo ti net).scoreT ≤ 100 ∧
      (analyze_technical_seo ti net).scoreT =
        100 * ((analyze_technical_seo ti net).pointsT : ℚ) / 27) ∧
    (∀ p : ℤ, pctOf p 0 = 0) := by
  intro mi ci bD anchors ti net
  obtain ⟨m0, m1⟩ := metaPoints_bound mi
  obtain ⟨c0, c1⟩ := contentPoints_bound ci
  obtain ⟨l0, l1⟩ := linkPoints_bound (linkFold bD anchors)
  obtain ⟨t0, t1⟩ := techPoints_bound ti net
  have hmeta : analyze_meta_tags mi = pctOf (metaPoints mi) 28 := rfl
  have hcontent : analyze_on_page_content ci = pctOf (contentPoints ci) 30 := rfl
  have hlink : (analyze_links bD anchors).2 =
      pctOf (linkPoints (linkFold bD anchors)) 15 := rfl
  have htech : (analyze_technical_seo ti net).scoreT =
      pctOf (analyze_technical_seo ti net).pointsT 27 := rfl
  obtain ⟨hm0, hm1⟩ := pctOf_bounds (show (0:ℤ) < 28 by norm_num) m0 m1
  obtain ⟨hc0, hc1⟩ := pctOf_bounds (show (0:ℤ) < 30 by norm_num) c0 (by omega)
  obtain ⟨hl0, hl1⟩ := pctOf_bounds (show (0:ℤ) < 15 by norm_num) l0 l1
  obtain ⟨ht0, ht1⟩ := pctOf_bounds (show (0:ℤ) < 27 by norm_num) t0 t1
  refine ⟨⟨?_, ?_, ?_⟩, ⟨?_, ?_, ?_⟩, ⟨?_, ?_, ?_⟩, ⟨?_, ?_, ?_⟩, pctOf_zero⟩
  · rw [hmeta]; exact hm0
  · rw [hmeta]; exact hm1
  · rw [hmeta, pctOf_eq (show (0:ℤ) < 28 by norm_num)]; norm_num
  · rw [hcontent]; exact hc0
  · rw [hcontent]; exact hc1
  · rw [hcontent, pctOf_eq (show (0:ℤ) < 30 by norm_num)]; norm_num
  · rw [hlink]; exact hl0
  · rw [hlink]; exact hl1
  · rw [hlink, pctOf_eq (show (0:ℤ) < 15 by norm_num)]; norm_num
  · rw [htech]; exact ht0
  · rw [htech]; exact ht1
  · rw [htech, pctOf_eq (show (0:ℤ) < 27 by norm_num)]; norm_num

/-- Claim C2: the overall score is the fixed-weight linear combination
(weights 0.20 / 0.35 / 0.15 / 0.30 summing to 1), so that
`aggregate(100,100,100,100) = 100`, `aggregate(0,0,0,0) = 0`, and
`aggregate` is linear. -/
theorem claim_C2 :
    ((0.20 : ℚ) + 0.35 + 0.15 + 0.30 = 1) ∧
    (∀ m c l t : ℚ, aggregate m c l t = m * 0.20 + c * 0.35 + l * 0.15 + t * 0.30) ∧
    aggregate 100 100 100 100 = 100 ∧
    aggregate 0 0 0 0 = 0 ∧
    (∀ m c l t m' c' l' t' : ℚ,
      aggregate (m + m') (c + c') (l + l') (t + t') =
        aggregate m c l t + aggregate m' c' l' t') ∧
    (∀ a m c l t : ℚ, aggregate (a * m) (a * c) (a * l) (a * t) = a * aggregate m c l t) := by
  refine ⟨by norm_num, fun m c l t => rfl, by norm_num [aggregate],
    by norm_num [aggregate], ?_, ?_⟩ <;> (intros; unfold aggregate; ring)

/-- Claim C7: image-alt scoring awards +4 when there are no images,
otherwise +4 exactly when at least 90% of images have non-empty alt text,
+2 when at least 50% do, and 0 otherwise; 10 images with 9 alts give +4,
10 with 5 give +2, 0 images give +4. -/
theorem claim_C7 :
    (∀ alts : List String,
      (alts = [] → imageAltPoints alts = 4) ∧
      (alts ≠ [] →
        ((imageAltPoints alts = 4 ↔ 9 * alts.length ≤ 10 * with_alt alts) ∧
         (imageAltPoints alts = 2 ↔
           10 * with_alt alts < 9 * alts.length ∧ alts.length ≤ 2 * with_alt alts) ∧
         (imageAltPoints alts = 0 ↔ 2 * with_alt alts < alts.length)))) ∧
    imageAltPoints (List.replicate 9 "x" ++ [""]) = 4 ∧
    imageAltPoints (List.replicate 5 "x" ++ List.replicate 5 "") = 2 ∧
    imageAltPoints [] = 4 := by
  have gen : ∀ alts : List String, alts ≠ [] →
      ((imageAltPoints alts = 4 ↔ 9 * alts.length ≤ 10 * with_alt alts) ∧
       (imageAltPoints alts = 2 ↔
         10 * with_alt alts < 9 * alts.length ∧ alts.length ≤ 2 * with_alt alts) ∧
       (imageAltPoints alts = 0 ↔ 2 * with_alt alts < alts.length)) := by
    intro alts hne
    have ht : 0 < alts.length := List.length_pos.mpr hne
    have htq : (0 : ℚ) < (alts.length : ℚ) := by exact_mod_cast ht
    have h90 : (((with_alt alts : ℚ) / (alts.length : ℚ)) * 100 ≥ 90) ↔
        9 * alts.length ≤ 10 * with_alt alts := by
      rw [ge_iff_le, div_mul_eq_mul_div, le_div_iff htq]
      constructor
      · intro h
        have hn : 90 * alts.length ≤ with_alt alts * 100 := by exact_mod_cast h
        omega
      · intro h
        have hn : 90 * alts.length ≤ with_alt alts * 100 := by omega
        exact_mod_cast hn
    have h50 : (((with_alt alts : ℚ) / (alts.length : ℚ)) * 100 ≥ 50) ↔
        alts.length ≤ 2 * with_alt alts := by
      rw [ge_iff_le, div_mul_eq_mul_div, le_div_iff htq]
      constructor
      · intro h
        have hn : 50 * alts.length ≤ with_alt alts * 100 := by exact_mod_cast h
        omega
      · intro h
        have hn : 50 * alts.length ≤ with_alt alts * 100 := by omega
        exact_mod_cast hn
    have key : imageAltPoints alts =
        (if 9 * alts.length ≤ 10 * with_alt alts then (4 : ℤ)
         else if alts.length ≤ 2 * with_alt alts then 2 else 0) := by
      unfold imageAltPoints
      rw [if_pos ht, if_congr h90 rfl rfl, if_congr h50 rfl rfl]
    rw [key]
    refine ⟨?_, ?_, ?_⟩ <;> split_ifs with hA hB <;> simp_all <;> omega
  refine ⟨fun alts => ⟨fun h => by simp [h, imageAltPoints], gen alts⟩, ?_, ?_, ?_⟩
  · have hw : with_alt (List.replicate 9 "x" ++ [""]) = 9 := by decide
    have hl : (List.replicate 9 "x" ++ ([""] : List String)).length = 10 := by decide
    unfold imageAltPoints
    rw [hw, hl]
    norm_num
  · have hw : with_alt (List.replicate 5 "x" ++ List.replicate 5 "") = 5 := by decide
    have hl : (List.replicate 5 "x" ++ (List.replicate 5 "" : List String)).length = 10 := by decide
    unfold imageAltPoints
    rw [hw, hl]
    norm_num
  · norm_num [imageAltPoints]

/-- Claim C10: the content points are never negative and never exceed 27
(components bounded by 8 / 5 / 5 / 5 / 4) while the declared maximum is
30, so the content percentage is at most 90 and a 100% content score is
unreachable. -/
theorem claim_C10 : ∀ ci : ContentInput,
    0 ≤ contentPoints ci ∧ contentPoints ci ≤ 27 ∧
    content_max_points = 30 ∧
    headingPoints (headingLevels ci.headings) ≤ 5 + 3 ∧
    lengthPoints (word_count ci) ≤ 5 ∧
    readabilityPoints ci ≤ 5 ∧
    keywordPoints ci ≤ 5 ∧
    imageAltPoints ci.imageAlts ≤ 4 ∧
    analyze_on_page_content ci ≤ 90 ∧
    analyze_on_page_content ci < 100 := by
  intro ci
  obtain ⟨c0, c1⟩ := contentPoints_bound ci
  have h90 : analyze_on_page_content ci ≤ 90 := by
    unfold analyze_on_page_content content_max_points
    unfold pctOf
    rw [if_pos (by norm_num : (0:ℤ) < 30)]
    have hc : ((contentPoints ci : ℤ) : ℚ) ≤ 27 := by exact_mod_cast c1
    rw [div_mul_eq_mul_div, div_le_iff (by norm_num : (0:ℚ) < ((30:ℤ):ℚ))]
    push_cast
    nlinarith
  exact ⟨c0, c1, rfl, (headingPoints_bound _).2, (lengthPoints_bound _).2,
    (readabilityPoints_bound _).2, (keywordPoints_bound _).2,
    (imageAltPoints_bound _).2, h90, lt_of_le_of_lt h90 (by norm_num)⟩

/-! ### Heading hierarchy (claim C5) -/

lemma hierStep_false (post : List Nat) (n : Nat) :
    (post.foldl hierStep (false, n)).1 = false := by
  induction post generalizing n with
  | nil => rfl
  | cons l ls ih =>
    simp only [List.foldl_cons, hierStep, ite_self]
    exact ih l

lemma headingScan_from (ls : List Nat) (n : Nat) (hn : 1 ≤ n)
    (hls : ∀ l ∈ ls, 1 ≤ l) :
    (ls.foldl hierStep (true, n)).1 = true ↔
      List.Chain' (fun a b => b ≤ a + 1) (n :: ls) := by
  induction ls generalizing n with
  | nil => simp
  | cons l ls ih =>
    have hl : 1 ≤ l := hls l (List.mem_cons_self _ _)
    by_cases hc : l > n + 1 ∧ n ≠ 0
    · simp only [List.foldl_cons, hierStep, if_pos hc]
      rw [List.chain'_cons]
      simp [hierStep_false ls l]
      omega
    · have hle : l ≤ n + 1 := by
        rcases Decidable.not_and_iff_or_not.mp hc with h | h
        · omega
        · omega
      simp only [List.foldl_cons, hierStep, if_neg hc]
      rw [ih l hl (fun x hx => hls x (List.mem_cons_of_mem _ hx)),
        List.chain'_cons]
      simp [hle]

/-- Claim C5: the hierarchy flag is a one-way latch, false exactly when
some non-empty heading level exceeds the previous one plus 1 (`[1,2,3]`
valid, `[1,3]` invalid, upward jumps fine); heading points follow the
+5 / −2-and-force-invalid / +3-or-+1 rubric, so `[h1, h2, h1]` gives
`h1Count = 2` and 4 points. -/
theorem claim_C5 :
    (∀ levels : List Nat, (∀ l ∈ levels, 1 ≤ l) →
      ((headingScan levels).1 = true ↔
        List.Chain' (fun a b => b ≤ a + 1) levels)) ∧
    (∀ pre post : List Nat,
      (headingScan pre).1 = false → (headingScan (pre ++ post)).1 = false) ∧
    (headingScan [1, 2, 3]).1 = true ∧
    (headingScan [1, 3]).1 = false ∧
    (∀ levels : List Nat, headingPoints levels =
      (if has_h1 levels then
        (if 1 < h1Count levels then 4
         else if (headingScan levels).1 then 8 else 6)
       else 0 : ℤ)) ∧
    h1Count (headingLevels [⟨1, "a"⟩, ⟨2, "b"⟩, ⟨1, "c"⟩]) = 2 ∧
    headingPoints (headingLevels [⟨1, "a"⟩, ⟨2, "b"⟩, ⟨1, "c"⟩]) = 4 := by
  refine ⟨?_, ?_, by decide, by decide, ?_, by decide, by decide⟩
  · intro levels h
    cases levels with
    | nil => simp [headingScan]
    | cons l ls =>
      have hl : 1 ≤ l := h l (List.mem_cons_self _ _)
      unfold headingScan
      simp only [List.foldl_cons, hierStep]
      rw [if_neg (by omega : ¬(l > 0 + 1 ∧ (0 : Nat) ≠ 0))]
      exact headingScan_from ls l hl (fun x hx => h x (List.mem_cons_of_mem _ hx))
  · intro pre post hp
    unfold headingScan at *
    rw [List.foldl_append]
    rcases hfold : pre.foldl hierStep (true, 0) with ⟨b, n⟩
    rw [hfold] at hp
    simp only at hp
    subst hp
    exact hierStep_false post n
  · intro levels
    unfold headingPoints
    cases hh : has_h1 levels <;> by_cases hc : 1 < h1Count levels <;>
      cases hs : (headingScan levels).1 <;>
        simp [hh, hc, hs] <;> omega

/-- Concrete instantiation of the hypotheses of `claim_C5`. -/
theorem claim_C5_witness :
    ((headingScan [1, 3]).1 = true ↔
      List.Chain' (fun a b => b ≤ a + 1) [1, 3]) ∧
    (headingScan ([1, 3] ++ [2])).1 = false :=
  ⟨claim_C5.1 [1, 3] (by decide), claim_C5.2.1 [1, 3] [2] (by decide)⟩

/-! ### Link analysis (claims C3, C4) -/

lemma not_http_iff (a : Anchor) :
    (a.scheme = "" ∨ (a.scheme ≠ "http" ∧ a.scheme ≠ "https")) ↔
      ¬(a.scheme = "http" ∨ a.scheme = "https") := by
  constructor
  · rintro (h | ⟨h1, h2⟩)
    · rw [h]
      rintro (h' | h') <;> simp_all
    · tauto
  · intro h
    push_neg at h
    exact Or.inr h

lemma linkFold_from (b : String) (anchors : List Anchor) (st : LinkData) :
    List.foldl (linkStep b) st anchors =
      ⟨st.internal ++
         (anchors.filter (fun a => isHttpAnchor a && a.domain == b)).map
           (fun a => a.url),
       st.external ++
         (anchors.filter (fun a => isHttpAnchor a && !(a.domain == b))).map
           (fun a => a.url),
       st.internal_count +
         anchors.countP (fun a => isHttpAnchor a && a.domain == b),
       st.external_count +
         anchors.countP (fun a => isHttpAnchor a && !(a.domain == b)),
       st.anchorKeys ++ anchors.map anchorKey,
       st.links_all ++ anchors.map (mkLinkInfo b)⟩ := by
  induction anchors generalizing st with
  | nil => simp
  | cons a as ih =>
    rw [List.foldl_cons]
    by_cases h1 : a.scheme = "" ∨ (a.scheme ≠ "http" ∧ a.scheme ≠ "https")
    · have hhttp : isHttpAnchor a = false := by
        simp only [isHttpAnchor, decide_eq_false_iff_not]
        exact (not_http_iff a).mp h1
      have hcls : mkLinkInfo b a = ⟨a.url, a.text, .other⟩ := by
        simp [mkLinkInfo, classifyLink, h1]
      rw [show linkStep b st a =
        ⟨st.internal, st.external, st.internal_count, st.external_count,
          st.anchorKeys ++ [anchorKey a],
          st.links_all ++ [⟨a.url, a.text, .other⟩]⟩ from by
          unfold linkStep; rw [if_pos h1]]
      rw [ih]
      simp [List.filter_cons, List.countP_cons, hhttp, hcls]
    · have hhttp : isHttpAnchor a = true := by
        simp only [isHttpAnchor, decide_eq_true_eq]
        by_contra hc
        exact h1 ((not_http_iff a).mpr hc)
      by_cases h2 : a.domain = b
      · have hcls : mkLinkInfo b a = ⟨a.url, a.text, .internal⟩ := by
          simp [mkLinkInfo, classifyLink, h1, h2]
        rw [show linkStep b st a =
          ⟨st.internal ++ [a.url], st.external, st.internal_count + 1,
            st.external_count, st.anchorKeys ++ [anchorKey a],
            st.links_all ++ [⟨a.url, a.text, .internal⟩]⟩ from by
            unfold linkStep; rw [if_neg h1, if_pos h2]]
        rw [ih]
        simp [List.filter_cons, List.countP_cons, hhttp, hcls, h2]
        omega
      · have hcls : mkLinkInfo b a = ⟨a.url, a.text, .external⟩ := by
          simp [mkLinkInfo, classifyLink, h1, h2]
        rw [show linkStep b st a =
          ⟨st.internal, st.external ++ [a.url], st.internal_count,
            st.external_count + 1, st.anchorKeys ++ [anchorKey a],
            st.links_all ++ [⟨a.url, a.text, .external⟩]⟩ from by
            unfold linkStep; rw [if_neg h1, if_neg h2]]
        rw [ih]
        simp [List.filter_cons, List.countP_cons, hhttp, hcls, h2]
        omega

lemma linkFold_eq (b : String) (anchors : List Anchor) :
    linkFold b anchors =
      ⟨(anchors.filter (fun a => isHttpAnchor a && a.domain == b)).map
         (fun a => a.url),
       (anchors.filter (fun a => isHttpAnchor a && !(a.domain == b))).map
         (fun a => a.url),
       anchors.countP (fun a => isHttpAnchor a && a.domain == b),
       anchors.countP (fun a => isHttpAnchor a && !(a.domain == b)),
       anchors.map anchorKey,
       anchors.map (mkLinkInfo b)⟩ := by
  unfold linkFold initLinkData
  rw [linkFold_from]
  simp

lemma countP_http_split (b : String) (anchors : List Anchor) :
    anchors.countP (fun a => isHttpAnchor a && a.domain == b) +
      anchors.countP (fun a => isHttpAnchor a && !(a.domain == b)) =
      anchors.countP isHttpAnchor := by
  induction anchors with
  | nil => simp
  | cons a as ih =>
    simp only [List.countP_cons]
    by_cases hh : isHttpAnchor a = true <;> by_cases hd : (a.domain == b) = true <;>
      simp [hh, hd] <;> omega

lemma total_links_eq (b : String) (anchors : List Anchor) :
    total_links (linkFold b anchors) = anchors.countP isHttpAnchor := by
  unfold total_links
  rw [linkFold_eq]
  exact countP_http_split b anchors

/-- Claim C3: every anchor is recorded in the full link list with its
classification (non-http/https schemes are "other", otherwise internal
exactly when the resolved domain equals the base domain); "other" links
are excluded from the internal/external lists and counts, hence from the
`total_links` scoring input. -/
theorem claim_C3 : ∀ (b : String) (anchors : List Anchor),
    (linkFold b anchors).links_all = anchors.map (mkLinkInfo b) ∧
    (∀ a : Anchor, (mkLinkInfo b a).type =
      (if ¬(a.scheme = "http" ∨ a.scheme = "https") then LinkType.other
       else if a.domain = b then .internal else .external)) ∧
    (linkFold b anchors).internal_count =
      anchors.countP (fun a => isHttpAnchor a && a.domain == b) ∧
    (linkFold b anchors).external_count =
      anchors.countP (fun a => isHttpAnchor a && !(a.domain == b)) ∧
    (linkFold b anchors).internal =
      (anchors.filter (fun a => isHttpAnchor a && a.domain == b)).map
        (fun a => a.url) ∧
    (linkFold b anchors).external =
      (anchors.filter (fun a => isHttpAnchor a && !(a.domain == b))).map
        (fun a => a.url) ∧
    total_links (linkFold b anchors) = anchors.countP isHttpAnchor := by
  intro b anchors
  refine ⟨by rw [linkFold_eq], ?_, by rw [linkFold_eq], by rw [linkFold_eq],
    by rw [linkFold_eq], by rw [linkFold_eq], total_links_eq b anchors⟩
  intro a
  unfold mkLinkInfo classifyLink
  by_cases h : a.scheme = "" ∨ (a.scheme ≠ "http" ∧ a.scheme ≠ "https")
  · rw [if_pos h, if_pos ((not_http_iff a).mp h)]
  · rw [if_neg h, if_neg (fun hc => h ((not_http_iff a).mpr hc))]

/-- The ratio comparison `empty < total * 0.5` in exact arithmetic. -/
lemma half_lt_iff (e t : ℕ) : ((e : ℚ) < (t : ℚ) * 0.5) ↔ 2 * e < t := by
  rw [show (0.5 : ℚ) = 1 / 2 by norm_num, mul_one_div,
    lt_div_iff (by norm_num : (0 : ℚ) < 2)]
  constructor
  · intro h
    have hn : e * 2 < t := by exact_mod_cast h
    omega
  · intro h
    have hn : e * 2 < t := by omega
    exact_mod_cast hn

/-- Claim C4 as stated is false: with only `mailto:` links carrying two
distinct anchor texts the code awards 0 points, while the claim's
ungated rubric awards +2 for anchor-text variety. -/
theorem claim_C4_counterexample :
    linkPoints (linkFold "a.com"
      [⟨"mailto:x@y.com", "mailto", "", "contact one"⟩,
       ⟨"mailto:z@w.com", "mailto", "", "contact two"⟩]) = 0 ∧
    linkPointsClaimed (linkFold "a.com"
      [⟨"mailto:x@y.com", "mailto", "", "contact one"⟩,
       ⟨"mailto:z@w.com", "mailto", "", "contact two"⟩]) = 2 := by
  have h1 : total_links (linkFold "a.com"
      [⟨"mailto:x@y.com", "mailto", "", "contact one"⟩,
       ⟨"mailto:z@w.com", "mailto", "", "contact two"⟩]) = 0 := by decide
  have h2 : distinctAnchorTexts (linkFold "a.com"
      [⟨"mailto:x@y.com", "mailto", "", "contact one"⟩,
       ⟨"mailto:z@w.com", "mailto", "", "contact two"⟩]) = 2 := by decide
  have h3 : (linkFold "a.com"
      [⟨"mailto:x@y.com", "mailto", "", "contact one"⟩,
       ⟨"mailto:z@w.com", "mailto", "", "contact two"⟩]).internal_count = 0 := by
    decide
  constructor
  · unfold linkPoints
    rw [h1]
    norm_num
  · unfold linkPointsClaimed
    rw [h1, h2, h3]
    norm_num

/-- Claim C4 amended: the rubric's three clauses award points exactly as
claimed, but the anchor-variety clause (+5/+2), like everything else, is
only reached when at least one http/https link exists (the whole rubric
sits inside `if total_links > 0`). -/
theorem claim_C4_amended_thm : ∀ (b : String) (anchors : List Anchor),
    linkPoints (linkFold b anchors) =
      if 0 < anchors.countP isHttpAnchor then
        5 +
        (if 0 < anchors.countP (fun a => isHttpAnchor a && a.domain == b) ∧
            0 < anchors.countP (fun a => isHttpAnchor a && !(a.domain == b)) ∧
            5 < anchors.countP isHttpAnchor
         then 5 else 0) +
        (if 3 < (dedupFirst (anchors.map anchorKey)).length ∧
            2 * (anchors.map anchorKey).count emptyAnchorKey <
              anchors.countP isHttpAnchor
         then 5
         else if 1 < (dedupFirst (anchors.map anchorKey)).length then 2 else 0)
      else 0 := by
  intro b anchors
  have htl := total_links_eq b anchors
  unfold linkPoints
  rw [htl]
  unfold distinctAnchorTexts emptyAnchorCount
  rw [linkFold_eq]
  dsimp only
  simp only [half_lt_iff, gt_iff_lt]

/-! ### Sitemap probing and technical error handling (claims C8, C9) -/

lemma findSome?_guard (p : String → Bool) (f : String → String) :
    ∀ l : List String,
      l.findSome? (fun x => if p x then some (f x) else none) =
        (l.find? p).map f := by
  intro l
  induction l with
  | nil => rfl
  | cons a as ih =>
    by_cases h : p a <;> simp [List.findSome?_cons, List.find?_cons, h, ih]

lemma probeOne_cases (net : TechNet) (u : String) :
    probeOne net u = (true, "Found") ∨ (probeOne net u).1 = false := by
  unfold probeOne
  repeat' split
  all_goals simp

lemma probeOne_found (net : TechNet) (u : String)
    (h : (probeOne net u).1 = true) : (probeOne net u).2 = "Found" := by
  rcases probeOne_cases net u with hc | hc
  · rw [hc]
  · rw [hc] at h
    exact absurd h (by simp)

lemma probeSucceeds_iff (net : TechNet) (u : String) :
    probeSucceeds net u = true ↔
      (net.head u = .status 200 ∨
        ∃ s, net.head u = .status s ∧ s ≠ 200 ∧ s ≠ 404 ∧
          net.get u = .status 200) := by
  unfold probeSucceeds probeOne
  repeat' split
  all_goals simp_all

lemma sitemapLoop_none (net : TechNet) :
    ∀ (cands : List String), firstHit net cands = none →
    ∀ (st : String) (u : Option String) (pr : List String),
      (sitemapLoop net cands st u pr).1 = false ∧
      (sitemapLoop net cands st u pr).2.2.2 = pr ++ cands := by
  intro cands
  induction cands with
  | nil => intro _ st u pr; simp [sitemapLoop]
  | cons c cs ih =>
    intro h st u pr
    unfold firstHit at h
    by_cases hc : probeSucceeds net c
    · rw [if_pos hc] at h
      exact absurd h (by simp)
    · rw [if_neg hc] at h
      have hcs : firstHit net cs = none := by
        rcases hfh : firstHit net cs with _ | j
        · rfl
        · rw [hfh] at h
          exact absurd h (by simp)
      have hr : (probeOne net c).1 = false := by
        unfold probeSucceeds at hc
        exact Bool.not_eq_true _ ▸ eq_false_of_ne_true hc
      simp only [sitemapLoop]
      rw [if_neg (by simp [hr])]
      obtain ⟨g1, g2⟩ := ih hcs (probeOne net c).2 (some c) (pr ++ [c])
      exact ⟨g1, by rw [g2]; simp⟩

lemma sitemapLoop_some (net : TechNet) :
    ∀ (cands : List String) (i : Nat), firstHit net cands = some i →
    ∀ (st : String) (u : Option String) (pr : List String),
      (sitemapLoop net cands st u pr).1 = true ∧
      (sitemapLoop net cands st u pr).2.1 = "Found" ∧
      (sitemapLoop net cands st u pr).2.2.1 = cands.get? i ∧
      (sitemapLoop net cands st u pr).2.2.2 = pr ++ cands.take (i + 1) := by
  intro cands
  induction cands with
  | nil => intro i h; simp [firstHit] at h
  | cons c cs ih =>
    intro i h st u pr
    unfold firstHit at h
    by_cases hc : probeSucceeds net c
    · rw [if_pos hc] at h
      have hi : i = 0 := by
        have := Option.some.inj h
        omega
      subst hi
      have hr : (probeOne net c).1 = true := hc
      have hfound : (probeOne net c).2 = "Found" := probeOne_found net c hr
      simp only [sitemapLoop]
      rw [if_pos hr]
      exact ⟨rfl, hfound, by simp, by simp⟩
    · rw [if_neg hc] at h
      rcases hfh : firstHit net cs with _ | j
      · rw [hfh] at h
        exact absurd h (by simp)
      · rw [hfh] at h
        simp only [Option.map_some'] at h
        have hi : i = j + 1 := (Option.some.inj h).symm
        subst hi
        have hr : (probeOne net c).1 = false := by
          unfold probeSucceeds at hc
          exact Bool.not_eq_true _ ▸ eq_false_of_ne_true hc
        simp only [sitemapLoop]
        rw [if_neg (by simp [hr])]
        obtain ⟨g1, g2, g3, g4⟩ := ih j hfh (probeOne net c).2 (some c) (pr ++ [c])
        refine ⟨g1, g2, by rw [g3]; simp, by rw [g4]; simp⟩

/-- Claim C8: the sitemap candidates are the robots-declared URL alone
when a `sitemap:` directive was found (case-insensitively, first match
wins), else `/sitemap.xml` then `/sitemap_index.xml`; each candidate is
probed by HEAD with a GET fallback on non-200/non-404 HEAD responses;
+5 points on the first candidate answering 200, with no further
candidates probed; 0 points when none succeeds. -/
theorem claim_C8 :
    (∀ body : String, sitemapDirective body =
      ((splitChar '\n' body).find? isSitemapLine).map sitemapUrlOf) ∧
    (∀ code : Nat, ∀ body : String, (robotsCheck (.ok (code, body))).directive =
      if code = 200 then sitemapDirective body else none) ∧
    sitemapDirective "User-agent: *\nSiTeMaP:   https://a.com/sm.xml  " =
      some "https://a.com/sm.xml" ∧
    sitemapDirective "Sitemap: https://a.com/sm.xml\nSitemap: https://b.com/x.xml" =
      some "https://a.com/sm.xml" ∧
    (∀ base u, sitemapCandidates base (some u) = [u]) ∧
    (∀ base, sitemapCandidates base none =
      [base ++ "/sitemap.xml", base ++ "/sitemap_index.xml"]) ∧
    (∀ net u, probeSucceeds net u = true ↔
      (net.head u = .status 200 ∨
        ∃ s, net.head u = .status s ∧ s ≠ 200 ∧ s ≠ 404 ∧
          net.get u = .status 200)) ∧
    (∀ net base d, (sitemapCheck net base d).found_in_robots = d.isSome) ∧
    (∀ net base d i, firstHit net (sitemapCandidates base d) = some i →
      (sitemapCheck net base d).pointsS = 5 ∧
      (sitemapCheck net base d).statusS = "Found" ∧
      (sitemapCheck net base d).probed = (sitemapCandidates base d).take (i + 1) ∧
      (sitemapCheck net base d).urlS = (sitemapCandidates base d).get? i) ∧
    (∀ net base d, firstHit net (sitemapCandidates base d) = none →
      (sitemapCheck net base d).pointsS = 0 ∧
      (sitemapCheck net base d).statusS = "Not Found (Common Locations)" ∧
      (sitemapCheck net base d).probed = sitemapCandidates base d) := by
  refine ⟨fun body => findSome?_guard _ _ _, ?_, by decide, by decide,
    fun base u => rfl, fun base => rfl, probeSucceeds_iff, fun net base d => ?_,
    ?_, ?_⟩
  · intro code body
    unfold robotsCheck
    dsimp only
    by_cases h : code = 200
    · rw [if_pos h, if_pos h]
    · rw [if_neg h, if_neg h]
      by_cases h4 : code = 404
      · rw [if_pos h4]
      · rw [if_neg h4]
  · simp only [sitemapCheck]
    split <;> rfl
  · intro net base d i h
    obtain ⟨g1, g2, g3, g4⟩ :=
      sitemapLoop_some net (sitemapCandidates base d) i h "Not Checked" d []
    simp only [sitemapCheck]
    rw [if_pos g1]
    exact ⟨rfl, g2, by rw [g4]; simp, g3⟩
  · intro net base d h
    obtain ⟨g1, g2⟩ := sitemapLoop_none net (sitemapCandidates base d) h
      "Not Checked" d []
    simp only [sitemapCheck]
    rw [if_neg (by simp [g1])]
    exact ⟨rfl, rfl, by rw [g2]; simp⟩

/-- Concrete instantiation of the hypotheses of `claim_C8`: robots.txt
declares the sitemap, HEAD answers 405, GET answers 200, so the single
candidate succeeds immediately. -/
theorem claim_C8_witness :
    firstHit probeNet (sitemapCandidates "https://a.com"
      (some "https://a.com/sm.xml")) = some 0 ∧
    (sitemapCheck probeNet "https://a.com" (some "https://a.com/sm.xml")).pointsS = 5 ∧
    (sitemapCheck probeNet "https://a.com" (some "https://a.com/sm.xml")).statusS =
      "Found" ∧
    (sitemapCheck probeNet "https://a.com" (some "https://a.com/sm.xml")).probed =
      (sitemapCandidates "https://a.com" (some "https://a.com/sm.xml")).take (0 + 1) :=
  ⟨by decide,
   (claim_C8.2.2.2.2.2.2.2.2.1 probeNet "https://a.com"
      (some "https://a.com/sm.xml") 0 (by decide)).1,
   (claim_C8.2.2.2.2.2.2.2.2.1 probeNet "https://a.com"
      (some "https://a.com/sm.xml") 0 (by decide)).2.1,
   (claim_C8.2.2.2.2.2.2.2.2.1 probeNet "https://a.com"
      (some "https://a.com/sm.xml") 0 (by decide)).2.2.1⟩

/-- Claim C9: the technical analyzer is total over every probe outcome:
its points decompose over the six checks, the non-probe checks do not
depend on the network, a robots failure (exception or unexpected status)
only degrades the robots status string and contributes 0 points, a fully
failing sitemap probe contributes 0 points with its status category, and
the percentage is always computed from the points. -/
theorem claim_C9 : ∀ (i : TechInput) (net net2 : TechNet),
    (analyze_technical_seo i net).pointsT =
      (analyze_technical_seo i net).httpsP +
      (analyze_technical_seo i net).robotsOut.pointsR +
      (analyze_technical_seo i net).sitemapOut.pointsS +
      (analyze_technical_seo i net).loadP +
      (analyze_technical_seo i net).mobileP +
      (analyze_technical_seo i net).schemaP ∧
    (analyze_technical_seo i net).httpsP = (analyze_technical_seo i net2).httpsP ∧
    (analyze_technical_seo i net).loadP = (analyze_technical_seo i net2).loadP ∧
    (analyze_technical_seo i net).mobileP = (analyze_technical_seo i net2).mobileP ∧
    (analyze_technical_seo i net).schemaP = (analyze_technical_seo i net2).schemaP ∧
    (∀ e, net.robots = .error e →
      (analyze_technical_seo i net).robotsOut.pointsR = 0 ∧
      (analyze_technical_seo i net).robotsOut.statusR = "Error fetching: " ++ e) ∧
    (∀ code : Nat, ∀ body : String, net.robots = .ok (code, body) →
      code ≠ 200 → code ≠ 404 →
      (analyze_technical_seo i net).robotsOut.pointsR = 0 ∧
      (analyze_technical_seo i net).robotsOut.statusR = natStatusStr code) ∧
    (firstHit net (sitemapCandidates i.base (robotsCheck net.robots).directive) =
        none →
      (analyze_technical_seo i net).sitemapOut.pointsS = 0 ∧
      (analyze_technical_seo i net).sitemapOut.statusS =
        "Not Found (Common Locations)") ∧
    (analyze_technical_seo i net).scoreT =
      100 * ((analyze_technical_seo i net).pointsT : ℚ) / 27 := by
  intro i net net2
  have hrb : (analyze_technical_seo i net).robotsOut = robotsCheck net.robots := rfl
  have hsm : (analyze_technical_seo i net).sitemapOut =
      sitemapCheck net i.base (robotsCheck net.robots).directive := rfl
  refine ⟨rfl, rfl, rfl, rfl, rfl, ?_, ?_, ?_, ?_⟩
  · intro e he
    rw [hrb, he]
    exact ⟨rfl, rfl⟩
  · intro code body hok h200 h404
    rw [hrb, hok]
    unfold robotsCheck
    dsimp only
    rw [if_neg h200, if_neg h404]
    exact ⟨rfl, rfl⟩
  · intro h
    obtain ⟨g1, _⟩ := sitemapLoop_none net _ h "Not Checked"
      (robotsCheck net.robots).directive []
    rw [hsm]
    simp only [sitemapCheck]
    rw [if_neg (by simp [g1])]
    exact ⟨rfl, rfl⟩
  · have : (analyze_technical_seo i net).scoreT =
        pctOf (analyze_technical_seo i net).pointsT 27 := rfl
    rw [this, pctOf_eq (show (0:ℤ) < 27 by norm_num)]
    norm_num

/-- Concrete instantiation of the hypotheses of `claim_C9`: a network
where the robots.txt fetch raises and every sitemap probe raises. -/
theorem claim_C9_witness :
    failNet.robots = Except.error "connection refused" ∧
    ((analyze_technical_seo techIn0 failNet).robotsOut.pointsR = 0 ∧
     (analyze_technical_seo techIn0 failNet).robotsOut.statusR =
       "Error fetching: " ++ "connection refused") ∧
    ((analyze_technical_seo techIn0 failNet).sitemapOut.pointsS = 0 ∧
     (analyze_technical_seo techIn0 failNet).sitemapOut.statusS =
       "Not Found (Common Locations)") ∧
    (analyze_technical_seo techIn0 failNet).scoreT =
      100 * ((analyze_technical_seo techIn0 failNet).pointsT : ℚ) / 27 :=
  ⟨rfl,
   (claim_C9 techIn0 failNet failNet).2.2.2.2.2.1 "connection refused" rfl,
   (claim_C9 techIn0 failNet failNet).2.2.2.2.2.2.2.1 (by decide),
   (claim_C9 techIn0 failNet failNet).2.2.2.2.2.2.2.2⟩

/-- Concrete instantiation of the hypotheses of `claim_C7`: two images,
one with alt text. -/
theorem claim_C7_witness :
    (["x", ""] : List String) ≠ [] ∧
    (imageAltPoints ["x", ""] = 2 ↔
      10 * with_alt ["x", ""] < 9 * (["x", ""] : List String).length ∧
      (["x", ""] : List String).length ≤ 2 * with_alt ["x", ""]) :=
  ⟨by decide, ((claim_C7.1 ["x", ""]).2 (by decide)).2.1⟩

/-! ### Keyword ranking (claim C6) -/

lemma mem_insertSorted {α : Type} (le : α → α → Bool) (a x : α) :
    ∀ l : List α, x ∈ insertSorted le a l ↔ x = a ∨ x ∈ l := by
  intro l
  induction l with
  | nil => simp [insertSorted]
  | cons y ys ih =>
    unfold insertSorted
    split
    · simp [List.mem_cons]
    · simp only [List.mem_cons, ih]
      tauto

lemma insertSorted_perm {α : Type} (le : α → α → Bool) (a : α) :
    ∀ l : List α, List.Perm (insertSorted le a l) (a :: l) := by
  intro l
  induction l with
  | nil => simp [insertSorted]
  | cons y ys ih =>
    unfold insertSorted
    split
    · exact List.Perm.refl _
    · exact (ih.cons y).trans (List.Perm.swap a y ys)

lemma pairwise_insertSorted {α : Type} (le : α → α → Bool)
    (htot : ∀ a b, le a b = true ∨ le b a = true)
    (htrans : ∀ a b c, le a b = true → le b c = true → le a c = true)
    (a : α) : ∀ l : List α, List.Pairwise (fun x y => le x y = true) l →
      List.Pairwise (fun x y => le x y = true) (insertSorted le a l) := by
  intro l
  induction l with
  | nil => intro _; simp [insertSorted]
  | cons y ys ih =>
    intro h
    rw [List.pairwise_cons] at h
    obtain ⟨hy, hys⟩ := h
    unfold insertSorted
    split
    · rename_i hle
      rw [List.pairwise_cons]
      refine ⟨?_, List.pairwise_cons.mpr ⟨hy, hys⟩⟩
      intro b hb
      rcases List.mem_cons.mp hb with rfl | hb
      · exact hle
      · exact htrans a y b hle (hy b hb)
    · rename_i hle
      have hya : le y a = true := by
        rcases htot a y with h | h
        · exact absurd h hle
        · exact h
      rw [List.pairwise_cons]
      refine ⟨?_, ih hys⟩
      intro b hb
      rcases (mem_insertSorted le a b ys).mp hb with rfl | hb
      · exact hya
      · exact hy b hb

lemma sortBy_perm {α : Type} (le : α → α → Bool) :
    ∀ l : List α, List.Perm (sortBy le l) l := by
  intro l
  induction l with
  | nil => simp [sortBy]
  | cons x xs ih =>
    unfold sortBy
    exact (insertSorted_perm le x (sortBy le xs)).trans (ih.cons x)

lemma sortBy_pairwise {α : Type} (le : α → α → Bool)
    (htot : ∀ a b, le a b = true ∨ le b a = true)
    (htrans : ∀ a b c, le a b = true → le b c = true → le a c = true) :
    ∀ l : List α, List.Pairwise (fun x y => le x y = true) (sortBy le l) := by
  intro l
  induction l with
  | nil => simp [sortBy]
  | cons x xs ih =>
    unfold sortBy
    exact pairwise_insertSorted le htot htrans x (sortBy le xs) ih

lemma mcKey_total (a b : Nat × String × Nat) :
    mcKey a b = true ∨ mcKey b a = true := by
  unfold mcKey
  simp only [Bool.or_eq_true, Bool.and_eq_true, decide_eq_true_eq]
  omega

lemma mcKey_trans (a b c : Nat × String × Nat)
    (h1 : mcKey a b = true) (h2 : mcKey b c = true) : mcKey a c = true := by
  unfold mcKey at *
  simp only [Bool.or_eq_true, Bool.and_eq_true, decide_eq_true_eq] at *
  omega

lemma mem_dedupFirstAux (x : String) :
    ∀ (l seen : List String), x ∈ dedupFirstAux seen l ↔ x ∈ l ∧ x ∉ seen := by
  intro l
  induction l with
  | nil => intro seen; simp [dedupFirstAux]
  | cons t ts ih =>
    intro seen
    unfold dedupFirstAux
    split
    · rename_i hts
      rw [ih seen]
      simp only [List.mem_cons]
      constructor
      · rintro ⟨hx, hs⟩
        exact ⟨Or.inr hx, hs⟩
      · rintro ⟨hx | hx, hs⟩
        · exact absurd (hx ▸ hts) hs
        · exact ⟨hx, hs⟩
    · rename_i hts
      simp only [List.mem_cons, ih (t :: seen)]
      constructor
      · rintro (rfl | ⟨hx, hs⟩)
        · exact ⟨Or.inl rfl, hts⟩
        · exact ⟨Or.inr hx, fun hm => hs (Or.inr hm)⟩
      · rintro ⟨rfl | hx, hs⟩
        · exact Or.inl rfl
        · by_cases hxt : x = t
          · exact Or.inl hxt
          · refine Or.inr ⟨hx, fun hm => ?_⟩
            rcases hm with h | h
            · exact hxt h
            · exact hs h

lemma mem_dedupFirst (x : String) (l : List String) :
    x ∈ dedupFirst l ↔ x ∈ l := by
  unfold dedupFirst
  rw [mem_dedupFirstAux]
  simp

lemma firstIdx_cons (y : String) (ys : List String) (t : String) :
    firstIdx (y :: ys) t = if y = t then 0 else firstIdx ys t + 1 := rfl

lemma dedupFirstAux_pairwise :
    ∀ (l seen : List String),
      (dedupFirstAux seen l).Pairwise
        (fun a b => firstIdx l a < firstIdx l b) := by
  intro l
  induction l with
  | nil => intro seen; simp [dedupFirstAux]
  | cons t ts ih =>
    intro seen
    unfold dedupFirstAux
    split
    · rename_i hts
      refine List.Pairwise.imp_of_mem ?_ (ih seen)
      intro a b ha hb hab
      have ha' := (mem_dedupFirstAux a ts seen).mp ha
      have hb' := (mem_dedupFirstAux b ts seen).mp hb
      have hat : ¬(t = a) := fun h => ha'.2 (by rw [← h]; exact hts)
      have hbt : ¬(t = b) := fun h => hb'.2 (by rw [← h]; exact hts)
      rw [firstIdx_cons, firstIdx_cons, if_neg hat, if_neg hbt]
      omega
    · rename_i hts
      rw [List.pairwise_cons]
      constructor
      · intro b hb
        have hb' := (mem_dedupFirstAux b ts (t :: seen)).mp hb
        have hbt : ¬(t = b) :=
          fun h => hb'.2 (by rw [← h]; exact List.mem_cons_self t seen)
        rw [firstIdx_cons, firstIdx_cons, if_pos rfl, if_neg hbt]
        omega
      · refine List.Pairwise.imp_of_mem ?_ (ih (t :: seen))
        intro a b ha hb hab
        have ha' := (mem_dedupFirstAux a ts (t :: seen)).mp ha
        have hb' := (mem_dedupFirstAux b ts (t :: seen)).mp hb
        have hat : ¬(t = a) :=
          fun h => ha'.2 (by rw [← h]; exact List.mem_cons_self t seen)
        have hbt : ¬(t = b) :=
          fun h => hb'.2 (by rw [← h]; exact List.mem_cons_self t seen)
        rw [firstIdx_cons, firstIdx_cons, if_neg hat, if_neg hbt]
        omega

lemma dedupFirst_pairwise (l : List String) :
    (dedupFirst l).Pairwise (fun a b => firstIdx l a < firstIdx l b) :=
  dedupFirstAux_pairwise l []

lemma dedupFirst_nodup (l : List String) : (dedupFirst l).Nodup := by
  refine (dedupFirst_pairwise l).imp ?_
  intro a b h hab
  subst hab
  omega

lemma sum_map_add {α : Type} (f g : α → ℕ) : ∀ l : List α,
    (l.map (fun t => f t + g t)).sum = (l.map f).sum + (l.map g).sum := by
  intro l
  induction l with
  | nil => simp
  | cons x xs ih =>
    simp only [List.map_cons, List.sum_cons, ih]
    omega

lemma sum_if_not_mem (x : String) : ∀ keys : List String, x ∉ keys →
    (keys.map (fun t => if x == t then (1 : ℕ) else 0)).sum = 0 := by
  intro keys
  induction keys with
  | nil => simp
  | cons k ks ih =>
    intro h
    have hxk : ¬(x == k) = true := by
      simp only [beq_iff_eq]
      intro he
      exact h (he ▸ List.mem_cons_self _ _)
    simp only [List.map_cons, List.sum_cons, if_neg hxk]
    rw [ih (fun hm => h (List.mem_cons_of_mem _ hm))]

lemma sum_if_single (x : String) : ∀ keys : List String, keys.Nodup →
    x ∈ keys → (keys.map (fun t => if x == t then (1 : ℕ) else 0)).sum = 1 := by
  intro keys
  induction keys with
  | nil => intro _ h; simp at h
  | cons k ks ih =>
    intro hnd hx
    rw [List.nodup_cons] at hnd
    rcases List.mem_cons.mp hx with rfl | hx
    · simp only [List.map_cons, List.sum_cons, if_pos (beq_self_eq_true x)]
      rw [sum_if_not_mem x ks hnd.1]
    · have hxk : ¬(x == k) = true := by
        simp only [beq_iff_eq]
        intro he
        exact hnd.1 (he ▸ hx)
      simp only [List.map_cons, List.sum_cons, if_neg hxk]
      rw [ih hnd.2 hx]

lemma sum_counts : ∀ (l keys : List String), keys.Nodup →
    (∀ y ∈ l, y ∈ keys) → (keys.map (fun t => l.count t)).sum = l.length := by
  intro l
  induction l with
  | nil => intro keys _ _; simp
  | cons x xs ih =>
    intro keys hnd hmem
    have hx : x ∈ keys := hmem x (List.mem_cons_self _ _)
    have hmap : keys.map (fun t => (x :: xs).count t) =
        keys.map (fun t => xs.count t + if x == t then 1 else 0) := by
      apply List.map_congr_left
      intro t _
      rw [List.count_cons]
    rw [hmap, sum_map_add,
      ih keys hnd (fun y hy => hmem y (List.mem_cons_of_mem _ hy)),
      sum_if_single x keys hnd hx]
    simp

lemma counterOf_map_fst (l : List String) :
    (counterOf l).map Prod.fst = dedupFirst l := by
  unfold counterOf
  rw [List.map_map]
  exact List.map_id _

lemma counterOf_sum (l : List String) :
    ((counterOf l).map (fun p => p.2)).sum = l.length := by
  unfold counterOf
  rw [List.map_map]
  have hc : ((fun p : String × Nat => p.2) ∘ fun t => (t, l.count t)) =
      fun t => l.count t := rfl
  rw [hc]
  exact sum_counts l (dedupFirst l) (dedupFirst_nodup l)
    (fun y hy => (mem_dedupFirst y l).mpr hy)

lemma mem_counterOf {p : String × Nat} {l : List String}
    (h : p ∈ counterOf l) : p.1 ∈ l ∧ p.2 = l.count p.1 := by
  unfold counterOf at h
  rcases List.mem_map.mp h with ⟨t, ht, rfl⟩
  exact ⟨(mem_dedupFirst t l).mp ht, rfl⟩

lemma sorted_mc (tokens : List String) :
    List.Pairwise (fun a b => mcKey a b = true)
      (sortBy mcKey (counterOf tokens).enum) :=
  sortBy_pairwise mcKey mcKey_total mcKey_trans _

lemma sorted_perm (tokens : List String) :
    List.Perm (sortBy mcKey (counterOf tokens).enum) (counterOf tokens).enum :=
  sortBy_perm mcKey _

lemma sorted_fst_ne (tokens : List String) :
    List.Pairwise (fun a b => a.1 ≠ b.1)
      (sortBy mcKey (counterOf tokens).enum) := by
  have henum : List.Pairwise (fun a b : Nat × String × Nat => a.1 ≠ b.1)
      (counterOf tokens).enum := by
    have h1 : ((counterOf tokens).enum.map Prod.fst).Nodup := by
      rw [List.enum_map_fst]
      exact List.nodup_range _
    rw [List.Nodup, List.pairwise_map] at h1
    exact h1
  exact (List.Perm.pairwise_iff (fun h => h.symm) (sorted_perm tokens)).mpr henum

lemma sorted_key_lt (tokens : List String) :
    List.Pairwise
      (fun a b : Nat × String × Nat =>
        b.2.2 < a.2.2 ∨
          (a.2.2 = b.2.2 ∧ firstIdx tokens a.2.1 < firstIdx tokens b.2.1))
      (sortBy mcKey (counterOf tokens).enum) := by
  have hcomb := (sorted_mc tokens).and (sorted_fst_ne tokens)
  refine List.Pairwise.imp_of_mem ?_ hcomb
  intro a b ha hb hab
  obtain ⟨hk, hne⟩ := hab
  have haE : a ∈ (counterOf tokens).enum := (sorted_perm tokens).subset ha
  have hbE : b ∈ (counterOf tokens).enum := (sorted_perm tokens).subset hb
  unfold mcKey at hk
  simp only [Bool.or_eq_true, Bool.and_eq_true, decide_eq_true_eq] at hk
  rcases hk with hlt | ⟨heq, hle⟩
  · exact Or.inl hlt
  · refine Or.inr ⟨heq, ?_⟩
    have hij : a.1 < b.1 := lt_of_le_of_ne hle hne
    have hga : (counterOf tokens).get? a.1 = some a.2 :=
      List.mem_enum_iff_get?.mp haE
    have hgb : (counterOf tokens).get? b.1 = some b.2 :=
      List.mem_enum_iff_get?.mp hbE
    have hta : (dedupFirst tokens).get? a.1 = some a.2.1 := by
      rw [← counterOf_map_fst, List.get?_map, hga]
      rfl
    have htb : (dedupFirst tokens).get? b.1 = some b.2.1 := by
      rw [← counterOf_map_fst, List.get?_map, hgb]
      rfl
    rcases List.get?_eq_some.mp hta with ⟨hla, hga'⟩
    rcases List.get?_eq_some.mp htb with ⟨hlb, hgb'⟩
    have hpw := List.pairwise_iff_get.mp (dedupFirst_pairwise tokens)
      ⟨a.1, hla⟩ ⟨b.1, hlb⟩ (Fin.mk_lt_mk.mpr hij)
    rw [hga', hgb'] at hpw
    exact hpw

lemma most_common_pairwise (tokens : List String) (k : Nat) :
    (most_common tokens k).Pairwise
      (fun p q : String × Nat =>
        q.2 < p.2 ∨ (p.2 = q.2 ∧ firstIdx tokens p.1 < firstIdx tokens q.1)) := by
  unfold most_common
  refine List.Pairwise.sublist (List.take_sublist _ _) ?_
  rw [List.pairwise_map]
  exact (sorted_key_lt tokens).imp (fun h => h)

lemma mem_most_common {p : String × Nat} {tokens : List String} {k : Nat}
    (h : p ∈ most_common tokens k) : p ∈ counterOf tokens := by
  unfold most_common at h
  have h1 : p ∈ (sortBy mcKey (counterOf tokens).enum).map Prod.snd :=
    (List.take_sublist _ _).subset h
  rcases List.mem_map.mp h1 with ⟨e, he, rfl⟩
  have heE : e ∈ (counterOf tokens).enum := (sorted_perm tokens).subset he
  exact List.get?_mem (List.mem_enum_iff_get?.mp heE)

lemma most_common_count_bounds {p : String × Nat} {tokens : List String}
    {k : Nat} (h : p ∈ most_common tokens k) :
    0 < p.2 ∧ p.2 ≤ tokens.length := by
  obtain ⟨hmem, hcnt⟩ := mem_counterOf (mem_most_common h)
  exact ⟨hcnt ▸ List.count_pos_iff_mem.mpr hmem,
    hcnt ▸ List.count_le_length _ _⟩

lemma most_common_ne_nil {p : String × Nat} {tokens : List String} {k : Nat}
    (h : p ∈ most_common tokens k) : tokens ≠ [] := by
  intro he
  subst he
  simp only [most_common, counterOf, dedupFirst, dedupFirstAux, List.map_nil,
    List.enum_nil, sortBy, List.take_nil, List.not_mem_nil] at h

lemma most_common_sum_le (tokens : List String) (k : Nat) :
    ((most_common tokens k).map (fun p => p.2)).sum ≤ tokens.length := by
  unfold most_common
  have hperm : List.Perm ((sortBy mcKey (counterOf tokens).enum).map Prod.snd)
      (counterOf tokens) := by
    have h1 := (sorted_perm tokens).map Prod.snd
    rw [List.enum_map_snd] at h1
    exact h1
  have hsum : ((((sortBy mcKey (counterOf tokens).enum).map Prod.snd)).map
      (fun p => p.2)).sum = ((counterOf tokens).map (fun p => p.2)).sum :=
    (hperm.map _).sum_eq
  rw [List.map_take]
  have hd := List.sum_take_add_sum_drop
    ((((sortBy mcKey (counterOf tokens).enum).map Prod.snd)).map (fun p => p.2)) k
  rw [← counterOf_sum tokens, ← hsum]
  omega

/-- Claim C6: the top-terms computation returns at most 10 entries,
ordered by count descending with ties broken by first occurrence; each
density is `100 * count / totalTokens`, densities lie in `[0, 100]`, the
densities of all distinct terms sum to at most 100 (as does the returned
subset); empty input gives the empty sequence, and a cutoff at least the
number of distinct terms returns exactly the distinct terms. -/
theorem claim_C6 : ∀ tokens : List String,
    (top_keywords_of tokens).length ≤ 10 ∧
    (top_keywords_of tokens).Pairwise
      (fun p q => q.2.1 < p.2.1 ∨
        (p.2.1 = q.2.1 ∧ firstIdx tokens p.1 < firstIdx tokens q.1)) ∧
    (∀ p ∈ top_keywords_of tokens,
      p.2.2 = 100 * (p.2.1 : ℚ) / (tokens.length : ℚ)) ∧
    (∀ p ∈ top_keywords_of tokens, 0 ≤ p.2.2 ∧ p.2.2 ≤ 100) ∧
    ((counterOf tokens).map
      (fun p => 100 * (p.2 : ℚ) / (tokens.length : ℚ))).sum ≤ 100 ∧
    ((top_keywords_of tokens).map (fun p => p.2.2)).sum ≤ 100 ∧
    (tokens = [] → top_keywords_of tokens = []) ∧
    (∀ k, (dedupFirst tokens).length ≤ k →
      List.Perm ((most_common tokens k).map Prod.fst) (dedupFirst tokens)) := by
  intro tokens
  refine ⟨?_, ?_, ?_, ?_, ?_, ?_, ?_, ?_⟩
  · unfold top_keywords_of most_common MAX_KEYWORDS_TO_SHOW
    rw [List.length_map, List.length_take]
    omega
  · unfold top_keywords_of
    rw [List.pairwise_map]
    exact (most_common_pairwise tokens MAX_KEYWORDS_TO_SHOW).imp (fun h => h)
  · intro p hp
    unfold top_keywords_of at hp
    rcases List.mem_map.mp hp with ⟨q, hq, rfl⟩
    have hne := most_common_ne_nil hq
    have hT : tokens.length > 0 := List.length_pos.mpr hne
    dsimp only
    rw [if_pos hT]
    ring
  · intro p hp
    unfold top_keywords_of at hp
    rcases List.mem_map.mp hp with ⟨q, hq, rfl⟩
    have hne := most_common_ne_nil hq
    have hT : tokens.length > 0 := List.length_pos.mpr hne
    have hTq : (0 : ℚ) < (tokens.length : ℚ) := by exact_mod_cast hT
    obtain ⟨hc0, hcT⟩ := most_common_count_bounds hq
    dsimp only
    rw [if_pos hT]
    constructor
    · positivity
    · rw [div_mul_eq_mul_div, div_le_iff hTq]
      have hcq : ((q.2 : ℕ) : ℚ) ≤ ((tokens.length : ℕ) : ℚ) := by
        exact_mod_cast hcT
      nlinarith
  · by_cases hne : tokens = []
    · subst hne
      simp [counterOf, dedupFirst, dedupFirstAux]
    · have hT : tokens.length > 0 := List.length_pos.mpr hne
      have hTq : (0 : ℚ) < (tokens.length : ℚ) := by exact_mod_cast hT
      have hmap : (counterOf tokens).map
          (fun p => 100 * (p.2 : ℚ) / (tokens.length : ℚ)) =
          (counterOf tokens).map
            (fun p => ((p.2 : ℕ) : ℚ) * (100 / (tokens.length : ℚ))) := by
        apply List.map_congr_left
        intro p _
        ring
      rw [hmap, List.sum_map_mul_right]
      have hS : ((counterOf tokens).map (fun p => ((p.2 : ℕ) : ℚ))).sum =
          ((tokens.length : ℕ) : ℚ) := by
        rw [← counterOf_sum tokens, Nat.cast_list_sum, List.map_map]
        rfl
      rw [hS]
      have hfin : ((tokens.length : ℕ) : ℚ) * (100 / (tokens.length : ℚ)) = 100 := by
        field_simp
      rw [hfin]
  · by_cases hne : tokens = []
    · subst hne
      simp [top_keywords_of, most_common, counterOf, dedupFirst, dedupFirstAux,
        sortBy]
    · have hT : tokens.length > 0 := List.length_pos.mpr hne
      have hTq : (0 : ℚ) < (tokens.length : ℚ) := by exact_mod_cast hT
      unfold top_keywords_of
      rw [List.map_map]
      have hmap : ((fun p : String × Nat × ℚ => p.2.2) ∘ fun p : String × Nat =>
          (p.1, p.2, if tokens.length > 0 then
            ((p.2 : ℚ) / (tokens.length : ℚ)) * 100 else 0)) =
          fun p : String × Nat => if tokens.length > 0 then
            ((p.2 : ℚ) / (tokens.length : ℚ)) * 100 else 0 := rfl
      rw [hmap]
      have hmap2 : (most_common tokens MAX_KEYWORDS_TO_SHOW).map
          (fun p : String × Nat => if tokens.length > 0 then
            ((p.2 : ℚ) / (tokens.length : ℚ)) * 100 else 0) =
          (most_common tokens MAX_KEYWORDS_TO_SHOW).map
            (fun p => ((p.2 : ℕ) : ℚ) * (100 / (tokens.length : ℚ))) := by
        apply List.map_congr_left
        intro p _
        rw [if_pos hT]
        ring
      rw [hmap2, List.sum_map_mul_right]
      have hcast : ((most_common tokens MAX_KEYWORDS_TO_SHOW).map
          (fun p => ((p.2 : ℕ) : ℚ))).sum =
          (((((most_common tokens MAX_KEYWORDS_TO_SHOW).map
            (fun p => p.2)).sum : ℕ)) : ℚ) := by
        rw [Nat.cast_list_sum, List.map_map]
        rfl
      rw [hcast]
      have hle : (((((most_common tokens MAX_KEYWORDS_TO_SHOW).map
          (fun p => p.2)).sum : ℕ)) : ℚ) ≤ ((tokens.length : ℕ) : ℚ) := by
        have h0 := most_common_sum_le tokens MAX_KEYWORDS_TO_SHOW
        exact_mod_cast h0
      have hpos : 0 ≤ 100 / (tokens.length : ℚ) := by positivity
      calc (((((most_common tokens MAX_KEYWORDS_TO_SHOW).map
            (fun p => p.2)).sum : ℕ)) : ℚ) * (100 / (tokens.length : ℚ))
          ≤ ((tokens.length : ℕ) : ℚ) * (100 / (tokens.length : ℚ)) :=
            mul_le_mul_of_nonneg_right hle hpos
        _ = 100 := by field_simp
  · intro h
    subst h
    rfl
  · intro k hk
    unfold most_common
    have hlen : ((sortBy mcKey (counterOf tokens).enum).map Prod.snd).length =
        (dedupFirst tokens).length := by
      rw [List.length_map, (sortBy_perm mcKey _).length_eq, List.enum_length]
      unfold counterOf
      rw [List.length_map]
    rw [List.take_of_length_le (by omega)]
    rw [List.map_map]
    have henum : (counterOf tokens).enum.map (Prod.fst ∘ Prod.snd) =
        dedupFirst tokens := by
      rw [← List.map_map, List.enum_map_snd, counterOf_map_fst]
    have hperm := (sorted_perm tokens).map (Prod.fst ∘ Prod.snd)
    rw [henum] at hperm
    exact hperm

/-- Concrete instantiation of the hypotheses of `claim_C6`. -/
theorem claim_C6_witness :
    ((dedupFirst ["beta", "alpha", "alpha"]).length ≤ 5 ∧
     List.Perm ((most_common ["beta", "alpha", "alpha"] 5).map Prod.fst)
       (dedupFirst ["beta", "alpha", "alpha"])) ∧
    top_keywords_of [] = [] :=
  ⟨⟨by decide, (claim_C6 ["beta", "alpha", "alpha"]).2.2.2.2.2.2.2 5 (by decide)⟩,
   (claim_C6 []).2.2.2.2.2.2.1 rfl⟩

end Seo
